import Mathlib

/-!
# Verification of the latinepi span-alignment pipeline

Shallow embedding of the core of the `latinepi` repository:

* `robust_spacy_converter.py` — the multi-strategy alignment resolver
  (`try_alignment_strategies`), the per-document conversion driver
  (`create_spacy_file_robust`), and the annotation accessor
  (`get_annotation_spans`);
* spaCy's `filter_spans` — the overlap-resolution pass the driver calls;
* `diagnose_alignment_issues.py` — the failure-reason classifier
  (`diagnose_failure_reason`);
* `validate_annotations.py` — the validation engine
  (`AnnotationValidator._validate_record` / `_validate_annotation`).

Python's `end` identifiers are rendered `stop` (`end` is a Lean keyword);
machine integers are `Int`/`Nat` (Python integers are unbounded, so no
modular arithmetic is needed); fallible code returns `Option`/`Except`.
-/

/-! ## Python string primitives -/

/-- Python whitespace (`str.isspace`, `str.strip`, `str.split`), modelled by
`Char.isWhitespace`. -/
def pyIsSpace (c : Char) : Bool := c.isWhitespace

/-- The slice `text[a:b]` for `0 ≤ a ≤ b ≤ len(text)`; every use in the
sources is guarded by such a bounds check. -/
def sliceCl (text : List Char) (a b : Nat) : List Char := (text.drop a).take (b - a)

/-- Python `str.lstrip()`. -/
def pyLStrip (cs : List Char) : List Char := cs.dropWhile pyIsSpace

/-- Python `str.rstrip()`. -/
def pyRStrip (cs : List Char) : List Char := (cs.reverse.dropWhile pyIsSpace).reverse

/-- Python `str.strip()`. -/
def pyStrip (cs : List Char) : List Char := pyRStrip (pyLStrip cs)

/-- Helper for `pyWordCount`: the Boolean records whether the previous
character was inside a word. -/
def pyWordCountAux : Bool → List Char → Nat
  | _, [] => 0
  | inWord, c :: rest =>
    if pyIsSpace c then pyWordCountAux false rest
    else (if inWord then 0 else 1) + pyWordCountAux true rest

/-- Python `len(s.split())`: the number of maximal non-whitespace runs. -/
def pyWordCount (cs : List Char) : Nat := pyWordCountAux false cs

/-! ## Tokens and spaCy spans

The tokenizer is an external collaborator: it supplies an ordered sequence
of tokens, each a half-open character range `[start, stop)` of the text.
-/

/-- A tokenizer token over a fixed text: half-open character offsets
`[start, stop)`. -/
structure Token where
  start : Nat
  stop : Nat
deriving Repr, DecidableEq

/-- A spaCy `Span`: a token-index range `[startTok, endTok)` together with
its character bounds (`startChar` is the start of token `startTok`,
`stopChar` the stop of token `endTok - 1`) and the entity label. -/
structure SpacySpan where
  startTok : Nat
  endTok : Nat
  startChar : Nat
  stopChar : Nat
  label : String
deriving Repr, DecidableEq

/-- The three alignment modes of spaCy's `Doc.char_span`. -/
inductive AlignMode
  | strict
  | expand
  | contract
deriving Repr, DecidableEq

/-- Modelled from the spec: the external tokenizer/`char_span` collaborator
maps each character position to the token whose extended range contains it,
where a token's extended range runs from its own start to the start of the
next token (trailing inter-token characters belong to the preceding token;
this is what makes Scenario B's offset 3 fall inside token `(2,3)`).
Returns the index of that token, or `none` when the position is before the
first token or past the last token's stop. -/
def tokenByCharAux : Nat → List Token → Int → Option Nat
  | _, [], _ => none
  | i, t :: rest, c =>
    let cover : Int :=
      match rest with
      | [] => (t.stop : Int)
      | u :: _ => (u.start : Int)
    if (t.start : Int) ≤ c ∧ c < cover then some i
    else tokenByCharAux (i + 1) rest c

/-- The token index covering character position `c` (see `tokenByCharAux`). -/
def tokenByChar (tokens : List Token) (c : Int) : Option Nat :=
  tokenByCharAux 0 tokens c

/-- Modelled from the spec: spaCy's `Doc.char_span(start, end, label,
alignment_mode)`, the boundary-coercion primitive of §4.1 (the spaCy
library is an external collaborator, not part of this repository).

* locate the token holding `startIdx` and the token holding `endIdx - 1`;
  fail if either position is uncovered;
* `strict` additionally demands `startIdx`/`endIdx` equal those tokens'
  exact boundaries;
* `expand` returns the token range as found, so the span grows outward to
  token boundaries;
* `contract` shrinks inward: a boundary strictly inside a token moves past
  that token, and the result must still be a nonempty token range. -/
def charSpan (tokens : List Token) (startIdx endIdx : Int) (label : String)
    (mode : AlignMode) : Option SpacySpan :=
  match tokenByChar tokens startIdx with
  | none => none
  | some s =>
    match tokens[s]? with
    | none => none
    | some st =>
      if mode = AlignMode.strict ∧ startIdx ≠ (st.start : Int) then none
      else
        match tokenByChar tokens (endIdx - 1) with
        | none => none
        | some e =>
          match tokens[e]? with
          | none => none
          | some et =>
            if mode = AlignMode.strict ∧ endIdx ≠ (et.stop : Int) then none
            else
              match mode with
              | AlignMode.contract =>
                let s' := if (st.start : Int) < startIdx then s + 1 else s
                if endIdx < (et.stop : Int) then
                  if e = 0 then none
                  else
                    if e - 1 < s' then none
                    else
                      match tokens[s']?, tokens[e - 1]? with
                      | some st', some et' => some ⟨s', e, st'.start, et'.stop, label⟩
                      | _, _ => none
                else
                  if e < s' then none
                  else
                    match tokens[s']? with
                    | some st' => some ⟨s', e + 1, st'.start, et.stop, label⟩
                    | none => none
              | _ => some ⟨s, e + 1, st.start, et.stop, label⟩

/-! ## The alignment strategy ladder (`robust_spacy_converter.try_alignment_strategies`) -/

/-- Strategy 3 of `try_alignment_strategies`: strip whitespace from the
entity text, recompute the offsets, and retry strict then expand. -/
def tryStrategy3 (tokens : List Token) (text : List Char) (start stop : Int)
    (label : String) : Option SpacySpan :=
  if 0 ≤ start ∧ start < stop ∧ stop ≤ (text.length : Int) then
    let entity_text := sliceCl text start.toNat stop.toNat
    let stripped := pyStrip entity_text
    if stripped ≠ [] ∧ stripped ≠ entity_text then
      let left_spaces : Nat := entity_text.length - (pyLStrip entity_text).length
      let right_spaces : Nat := entity_text.length - (pyRStrip entity_text).length
      let new_start := start + (left_spaces : Int)
      let new_stop := stop - (right_spaces : Int)
      match charSpan tokens new_start new_stop label AlignMode.strict with
      | some span => some span
      | none => charSpan tokens new_start new_stop label AlignMode.expand
    else none
  else none

/-- The shift sequence of strategy 4: `for shift in [-1, 1, -2, 2]`. -/
def strategy4Deltas : List Int := [-1, 1, -2, 2]

/-- The candidate bounds attempted by strategy 4, in order:
`(max(0, start + shift), min(len(text), end + shift))`. -/
def strategy4Bounds (textLen : Nat) (start stop : Int) : List (Int × Int) :=
  strategy4Deltas.map fun shift =>
    (max 0 (start + shift), min (textLen : Int) (stop + shift))

/-- Strategy 4 of `try_alignment_strategies`: retry expand over the shifted
candidate bounds, first success wins. -/
def tryStrategy4 (tokens : List Token) (textLen : Nat) (start stop : Int)
    (label : String) : Option SpacySpan :=
  List.findSome? (fun p => charSpan tokens p.1 p.2 label AlignMode.expand)
    (strategy4Bounds textLen start stop)

/-- The shift range of strategy 5: `[-2, -1, 0, 1, 2]`. -/
def shiftRange : List Int := [-2, -1, 0, 1, 2]

/-- The shift pairs enumerated by strategy 5's nested loops, in row-major
order, with only the no-op `(0, 0)` skipped by the `continue`. -/
def strategy5Shifts : List (Int × Int) :=
  (shiftRange.flatMap fun ss => shiftRange.map fun es => (ss, es)).filter
    fun p => !(p.1 = 0 ∧ p.2 = 0)

/-- The clamped candidate bounds of one strategy-5 shift pair, or `none`
when `new_start >= new_end` makes the loop `continue`. -/
def strategy5Attempt (textLen : Nat) (start stop : Int) (p : Int × Int) :
    Option (Int × Int) :=
  let new_start := max 0 (start + p.1)
  let new_stop := min (textLen : Int) (stop + p.2)
  if new_start ≥ new_stop then none else some (new_start, new_stop)

/-- Strategy 5 of `try_alignment_strategies`: independently adjust start and
stop over `strategy5Shifts`, retrying expand; first success wins. -/
def tryStrategy5 (tokens : List Token) (textLen : Nat) (start stop : Int)
    (label : String) : Option SpacySpan :=
  List.findSome?
    (fun p =>
      match strategy5Attempt textLen start stop p with
      | none => none
      | some q => charSpan tokens q.1 q.2 label AlignMode.expand)
    strategy5Shifts

/-- Modelled from the spec: the shift-pair enumeration §4.1 item 5 claims —
the cross-product minus the no-op and minus every uniform combination
`start_shift = end_shift` already tried by strategy 4 (over the range
`{-2,...,2}` those exclusions are exactly the diagonal). -/
def strategy5ShiftsSpec : List (Int × Int) :=
  (shiftRange.flatMap fun ss => shiftRange.map fun es => (ss, es)).filter
    fun p => !(p.1 = p.2)

/-- Modelled from the spec: strategy 5 as the spec describes it, i.e. the
same search but over `strategy5ShiftsSpec`. -/
def tryStrategy5Spec (tokens : List Token) (textLen : Nat) (start stop : Int)
    (label : String) : Option SpacySpan :=
  List.findSome?
    (fun p =>
      match strategy5Attempt textLen start stop p with
      | none => none
      | some q => charSpan tokens q.1 q.2 label AlignMode.expand)
    strategy5ShiftsSpec

/-- Function `try_alignment_strategies(doc, text, start, end, label)`: the
six-rung strategy ladder, first success wins, `none` when all strategies
fail. -/
def try_alignment_strategies (tokens : List Token) (text : List Char)
    (start stop : Int) (label : String) : Option SpacySpan :=
  match charSpan tokens start stop label AlignMode.strict with
  | some span => some span
  | none =>
  match charSpan tokens start stop label AlignMode.expand with
  | some span => some span
  | none =>
  match tryStrategy3 tokens text start stop label with
  | some span => some span
  | none =>
  match tryStrategy4 tokens text.length start stop label with
  | some span => some span
  | none =>
  match tryStrategy5 tokens text.length start stop label with
  | some span => some span
  | none => charSpan tokens start stop label AlignMode.contract

/-- Both character boundaries of a span coincide with token boundaries:
the boundary invariant of the spec's §8. -/
def boundaryOk (tokens : List Token) (sp : SpacySpan) : Prop :=
  (∃ t ∈ tokens, sp.startChar = t.start) ∧ (∃ t ∈ tokens, sp.stopChar = t.stop)

/-! ## Scenario fixtures (spec §8) -/

/-- The token sequence of Scenarios A/B:
`[(0,1),(2,3),(4,9),(10,16),(17,23)]`. -/
def scenTokens : List Token := [⟨0, 1⟩, ⟨2, 3⟩, ⟨4, 9⟩, ⟨10, 16⟩, ⟨17, 23⟩]

/-- The text of Scenarios A/B. -/
def scenText : List Char := "D M GAIVS IVLIVS CAESAR".data

/-! ## The per-document conversion driver (`create_spacy_file_robust`, lines 158-183)

One raw annotation entry of a record: the driver skips entries that are not
3-element lists and unpacks the rest as `(start, end, label)`; per the input
format (spec §6) the elements of a well-formed entry are two integers and a
string.
-/

/-- One element of a record's annotation list as seen by the driver. -/
inductive RawEntity
  | triple (start stop : Int) (label : String)
  | malformed
deriving Repr, DecidableEq

/-- Whether an annotation entry is a well-formed 3-element list. -/
def RawEntity.isTriple : RawEntity → Bool
  | .triple .. => true
  | .malformed => false

/-- The three per-entity counters of the driver's `stats`. -/
structure DocStats where
  perfect : Nat
  recovered : Nat
  dropped : Nat
deriving Repr, DecidableEq

/-- The driver's per-document entity loop: malformed entries are skipped;
each triple is first tried with plain expand (a perfect alignment), then
through `try_alignment_strategies` (a recovery), and is otherwise dropped.
Returns the accumulated candidate list and the counters. -/
def processAnnotations (tokens : List Token) (text : List Char) :
    List RawEntity → List SpacySpan × DocStats
  | [] => ([], ⟨0, 0, 0⟩)
  | RawEntity.malformed :: rest => processAnnotations tokens text rest
  | RawEntity.triple start stop label :: rest =>
    let r := processAnnotations tokens text rest
    match charSpan tokens start stop label AlignMode.expand with
    | some sp => (sp :: r.1, {r.2 with perfect := r.2.perfect + 1})
    | none =>
      match try_alignment_strategies tokens text start stop label with
      | some sp => (sp :: r.1, {r.2 with recovered := r.2.recovered + 1})
      | none => (r.1, {r.2 with dropped := r.2.dropped + 1})

/-! ## The overlap resolver (spaCy `filter_spans`, called at line 187)

Source of the collaborator (spaCy `spacy/util.py`), reproduced in the spec
as a greedy reduction: sort by `(span.end - span.start, -span.start)`
descending (Python's stable sort), accept a span iff neither its first nor
its last token index was already taken, finally sort the accepted spans by
`span.start`. Python's Timsort is modelled by insertion sort: any two
stable sorts with the same comparator agree extensionally.
-/

/-- Number of tokens covered by a span (`span.end - span.start`). -/
def span_length (sp : SpacySpan) : Nat := sp.endTok - sp.startTok

/-- Sort priority of `sorted(spans, key=(length, -start), reverse=True)`:
`a` sorts no later than `b`. Ties (equal length and start) hold in both
directions, so a stable sort keeps input order on them. -/
def spanPriority (a b : SpacySpan) : Prop :=
  span_length b < span_length a ∨
    (span_length b = span_length a ∧ a.startTok ≤ b.startTok)

instance : DecidableRel spanPriority := fun a b => by
  unfold spanPriority; infer_instance

instance : IsTotal SpacySpan spanPriority :=
  ⟨by intro a b; unfold spanPriority; omega⟩

instance : IsTrans SpacySpan spanPriority :=
  ⟨by intro a b c; unfold spanPriority; omega⟩

/-- Sort priority of the final `sorted(result, key=lambda span: span.start)`. -/
def startPriority (a b : SpacySpan) : Prop := a.startTok ≤ b.startTok

instance : DecidableRel startPriority := fun a b => by
  unfold startPriority; infer_instance

instance : IsTotal SpacySpan startPriority :=
  ⟨by intro a b; unfold startPriority; omega⟩

instance : IsTrans SpacySpan startPriority :=
  ⟨by intro a b c; unfold startPriority; omega⟩

/-- Token index `n` lies inside span `sp`. -/
def spanTok (sp : SpacySpan) (n : Nat) : Prop := sp.startTok ≤ n ∧ n < sp.endTok

instance (sp : SpacySpan) (n : Nat) : Decidable (spanTok sp n) := by
  unfold spanTok; infer_instance

/-- Two spans share no token. -/
def spansDisjoint (a b : SpacySpan) : Prop := ∀ n, ¬(spanTok a n ∧ spanTok b n)

/-- The greedy acceptance loop of `filter_spans`: `seen` is the set of
token indices of already-accepted spans; a span is accepted iff neither
`span.start` nor `span.end - 1` is in `seen` (the sources only ever build
spans with `endTok ≥ 1`, so the truncated subtraction agrees with Python). -/
def filterGo : List Nat → List SpacySpan → List SpacySpan
  | _, [] => []
  | seen, sp :: rest =>
    if sp.startTok ∈ seen ∨ sp.endTok - 1 ∈ seen then filterGo seen rest
    else sp :: filterGo (seen ++ List.range' sp.startTok (sp.endTok - sp.startTok)) rest

/-- spaCy `filter_spans(spans)`. -/
def filter_spans (spans : List SpacySpan) : List SpacySpan :=
  List.insertionSort startPriority
    (filterGo [] (List.insertionSort spanPriority spans))

/-! ## Python values (`json.loads` results) and the annotation accessor -/

/-- A JSON value as produced by `json.loads`, as far as the validated
records use them. -/
inductive PyVal : Type
  | pyStr (s : String)
  | pyInt (n : Int)
  | pyNone
  | pyList (xs : List PyVal)
  | pyDict (entries : List (String × PyVal))

/-- The Python exceptions the modelled code can raise. -/
inductive PyExc
  | keyError
  | typeError
  | attributeError
deriving Repr, DecidableEq

/-- Python `d.get(k)` on a dict modelled as an association list (first
binding wins). -/
def dictGet (entries : List (String × PyVal)) (k : String) : Option PyVal :=
  (entries.find? fun e => e.1 = k).map (·.2)

/-- Python subscripting `v[k]` with a string key: a `KeyError` on a dict
without the key, a `TypeError` on any non-dict value. -/
def pySubscript (v : PyVal) (k : String) : Except PyExc PyVal :=
  match v with
  | PyVal.pyDict entries =>
    match dictGet entries k with
    | some x => Except.ok x
    | none => Except.error PyExc.keyError
  | _ => Except.error PyExc.typeError

/-- Function `get_annotation_spans(record)` of `robust_spacy_converter.py`:
`record.get('annotations')` (missing key gives `None`), return it if it is
a list, otherwise try `raw['annotations']` and turn a caught
`KeyError`/`TypeError` into `[]`. `pySubscript` raises only those two
exceptions, so the final catch-all arm is unreachable. -/
def get_annotation_spans (record : List (String × PyVal)) : PyVal :=
  let raw := (dictGet record "annotations").getD PyVal.pyNone
  match raw with
  | PyVal.pyList xs => PyVal.pyList xs
  | _ =>
    match pySubscript raw "annotations" with
    | Except.ok v => v
    | Except.error PyExc.keyError => PyVal.pyList []
    | Except.error PyExc.typeError => PyVal.pyList []
    | Except.error _ => PyVal.pyList []

/-! ## The validation engine (`validate_annotations.AnnotationValidator`) -/

/-- One stored example of an entity label: the span text, the full record
text as context, and the record id. -/
structure ExampleEntry where
  text : List Char
  context : PyVal
  id : PyVal

/-- The mutable state of `AnnotationValidator` that `_validate_record` and
`_validate_annotation` touch. -/
structure VState where
  errors : List String
  warnings : List String
  entity_counts : List (String × Nat)
  entity_examples : List (String × List ExampleEntry)

/-- The freshly-initialized validator state. -/
def initVState : VState := ⟨[], [], [], []⟩

/-- Lookup in a `Counter` modelled as an association list (0 when absent). -/
def countVal (cs : List (String × Nat)) (label : String) : Nat :=
  ((cs.find? fun e => e.1 = label).map (·.2)).getD 0

/-- Python `counter[label] += 1`. -/
def bumpCount : List (String × Nat) → String → List (String × Nat)
  | [], label => [(label, 1)]
  | e :: rest, label =>
    if e.1 = label then (e.1, e.2 + 1) :: rest else e :: bumpCount rest label

/-- Lookup in the examples `defaultdict(list)` (empty when absent). -/
def examplesVal (es : List (String × List ExampleEntry)) (label : String) :
    List ExampleEntry :=
  ((es.find? fun e => e.1 = label).map (·.2)).getD []

/-- Python `examples[label].append(ex)`. -/
def addExample : List (String × List ExampleEntry) → String → ExampleEntry →
    List (String × List ExampleEntry)
  | [], label, ex => [(label, [ex])]
  | e :: rest, label, ex =>
    if e.1 = label then (e.1, e.2 ++ [ex]) :: rest
    else e :: addExample rest label ex

/-- Field `stats['total_entities']` of `_compute_statistics`:
`sum(entity_counts.values())`. -/
def totalEntities (st : VState) : Nat := (st.entity_counts.map (·.2)).sum

/-- Python `type(v)` rendered as the class name used in error messages. -/
def pyTypeName : PyVal → String
  | PyVal.pyStr _ => "str"
  | PyVal.pyInt _ => "int"
  | PyVal.pyNone => "NoneType"
  | PyVal.pyList _ => "list"
  | PyVal.pyDict _ => "dict"

/-- Python `len(v)`: defined on strings, lists and dicts, a `TypeError`
otherwise. -/
def pyLen : PyVal → Except PyExc Int
  | PyVal.pyStr s => Except.ok s.length
  | PyVal.pyList xs => Except.ok xs.length
  | PyVal.pyDict es => Except.ok es.length
  | _ => Except.error PyExc.typeError

/-- Python `text[start:end].strip()` as `_validate_annotation` performs it
after the bounds check: on a string it is the stripped slice; on a list the
slice succeeds but `.strip()` raises `AttributeError`; other values raise
`TypeError` at the subscript. -/
def pySliceStrip : PyVal → Nat → Nat → Except PyExc (List Char)
  | PyVal.pyStr s, a, b => Except.ok (pyStrip (sliceCl s.data a b))
  | PyVal.pyList _, _, _ => Except.error PyExc.attributeError
  | _, _, _ => Except.error PyExc.typeError

/-- Python `text[start:end]` on a string. -/
def pySliceStr : PyVal → Nat → Nat → Except PyExc (List Char)
  | PyVal.pyStr s, a, b => Except.ok (sliceCl s.data a b)
  | PyVal.pyList _, _, _ => Except.error PyExc.attributeError
  | _, _, _ => Except.error PyExc.typeError

/-- Method `AnnotationValidator._validate_annotation(annotation, text,
line_num, ann_index, record_id)`, lines 91-165: structure check, type
checks, the three bounds errors, then (for in-bounds spans) the
empty-span warning, the per-label count and the capped example store. -/
def validateAnnSpan (annEntry : PyVal) (text : PyVal)
    (lineNum annIndex : Nat) (recordId : PyVal) (st : VState) :
    Except PyExc VState :=
  match annEntry with
  | PyVal.pyList [a, b, c] =>
    match a, b, c with
    | PyVal.pyInt start, PyVal.pyInt stop, PyVal.pyStr label =>
      let st1 := if start < 0 then
          {st with errors := st.errors ++
            ["Line " ++ toString lineNum ++ ", ann " ++ toString annIndex ++
              ": start index " ++ toString start ++ " is negative"]}
        else st
      match pyLen text with
      | Except.error exc => Except.error exc
      | Except.ok n =>
        let st2 := if stop > n then
            {st1 with errors := st1.errors ++
              ["Line " ++ toString lineNum ++ ", ann " ++ toString annIndex ++
                ": end index " ++ toString stop ++ " exceeds text length " ++ toString n]}
          else st1
        let st3 := if start ≥ stop then
            {st2 with errors := st2.errors ++
              ["Line " ++ toString lineNum ++ ", ann " ++ toString annIndex ++
                ": start " ++ toString start ++ " >= end " ++ toString stop]}
          else st2
        if 0 ≤ start ∧ start < stop ∧ stop ≤ n then
          match pySliceStr text start.toNat stop.toNat with
          | Except.error exc => Except.error exc
          | Except.ok span_text =>
            let st4 := if pyStrip span_text = [] then
                {st3 with warnings := st3.warnings ++
                  ["Line " ++ toString lineNum ++ ", ann " ++ toString annIndex ++
                    ": Empty or whitespace-only span at [" ++ toString start ++
                    ":" ++ toString stop ++ "]"]}
              else st3
            let st5 := {st4 with entity_counts := bumpCount st4.entity_counts label}
            let st6 := if (examplesVal st5.entity_examples label).length < 5 then
                {st5 with entity_examples :=
                  addExample st5.entity_examples label ⟨span_text, text, recordId⟩}
              else st5
            Except.ok st6
        else
          Except.ok st3
    | PyVal.pyInt _, PyVal.pyInt _, lab =>
      let tname := pyTypeName lab
      Except.ok {st with errors := st.errors ++
        ["Line " ++ toString lineNum ++ ", ann " ++ toString annIndex ++
          ": label must be string, got " ++ tname]}
    | x, y, _ =>
      let tx := pyTypeName x
      let ty := pyTypeName y
      Except.ok {st with errors := st.errors ++
        ["Line " ++ toString lineNum ++ ", ann " ++ toString annIndex ++
          ": start and end must be integers, got " ++ tx ++ ", " ++ ty]}
  | _ =>
    Except.ok {st with errors := st.errors ++
      ["Line " ++ toString lineNum ++ ", ann " ++ toString annIndex ++
        ": Invalid format. Expected [start, end, label]"]}

/-- The `for i, ann in enumerate(annotations)` loop at the end of
`_validate_record`: for every element, the call site first evaluates
`record['id']` (a `KeyError` when the field is missing) and then runs
`_validate_annotation`. -/
def validateAnnLoop (record : List (String × PyVal)) (anns : List PyVal)
    (text : PyVal) (lineNum i : Nat) (st : VState) : Except PyExc VState :=
  match anns with
  | [] => Except.ok st
  | ann :: rest =>
    match dictGet record "id" with
    | none => Except.error PyExc.keyError
    | some rid =>
      match validateAnnSpan ann text lineNum i rid st with
      | Except.error exc => Except.error exc
      | Except.ok st' => validateAnnLoop record rest text lineNum (i + 1) st'

/-- Method `AnnotationValidator._validate_record(record, line_num)`, lines
62-89: a missing `id` is only a warning, a missing `transcription` or
`annotations` is an error that ends the record, a non-list `annotations`
is an error, and each annotation is then checked in turn (evaluating
`record['id']` at every call). -/
def validateRecord (record : List (String × PyVal)) (lineNum : Nat)
    (st : VState) : Except PyExc VState :=
  let st := if (dictGet record "id").isNone then
      {st with warnings := st.warnings ++
        ["Line " ++ toString lineNum ++ ": Missing id field"]}
    else st
  match dictGet record "transcription" with
  | none =>
    Except.ok {st with errors := st.errors ++
      ["Line " ++ toString lineNum ++ ": Missing transcription field"]}
  | some text =>
    match dictGet record "annotations" with
    | none =>
      Except.ok {st with errors := st.errors ++
        ["Line " ++ toString lineNum ++ ": Missing annotations field"]}
    | some annotations =>
      match annotations with
      | PyVal.pyList anns => validateAnnLoop record anns text lineNum 0 st
      | other =>
        let tname := pyTypeName other
        Except.ok {st with errors := st.errors ++
          ["Line " ++ toString lineNum ++ ": annotations must be a list, got " ++ tname]}

/-- The state a successful validation run carries, with a default for the
(im)possible error case; used to phrase theorems about `Except` results
without an existential. -/
def vResult (d : VState) (r : Except PyExc VState) : VState :=
  match r with
  | Except.ok st => st
  | Except.error _ => d

/-! ## The failure classifier (`diagnose_alignment_issues.diagnose_failure_reason`) -/

/-- The closed enumeration of failure reasons (spec §4.3); the
`tokenization_mismatch_expected_<N>_got_<M>` reason is parameterized. -/
inductive FailureReason
  | out_of_bounds
  | whitespace_only
  | no_overlapping_tokens
  | both_boundaries_mid_token
  | start_mid_token
  | end_mid_token
  | starts_with_whitespace
  | ends_with_whitespace
  | tokenization_mismatch (expected got : Nat)
  | unknown_reason
deriving Repr, DecidableEq

/-- The tokens overlapping `[start, stop)`, in document order: the loop
collecting tokens with `not (end <= token_start or start >= token_end)`. -/
def overlappingTokens (tokens : List Token) (start stop : Int) : List Token :=
  tokens.filter fun t => !(stop ≤ (t.start : Int) ∨ start ≥ (t.stop : Int))

/-- Python `text[a:b].isspace()`: nonempty and all whitespace. -/
def sliceIsSpace (text : List Char) (a b : Nat) : Bool :=
  let s := sliceCl text a b
  s ≠ [] ∧ s.all pyIsSpace

/-- Function `diagnose_failure_reason(doc, text, start, end, expected_text)`,
lines 228-289; `expected_text` is the caller's `text[start:end]` (the
in-bounds case is the only one read past the first check, so it is computed
here). The mid-token checks look at the first and last overlapping token. -/
def diagnose_failure_reason (tokens : List Token) (text : List Char)
    (start stop : Int) : FailureReason :=
  if start < 0 ∨ stop > (text.length : Int) ∨ start ≥ stop then
    FailureReason.out_of_bounds
  else
    let expected_text := sliceCl text start.toNat stop.toNat
    if pyStrip expected_text = [] then FailureReason.whitespace_only
    else
      match overlappingTokens tokens start stop with
      | [] => FailureReason.no_overlapping_tokens
      | first :: rest =>
        let lastTok := (first :: rest).getLast (List.cons_ne_nil _ _)
        let starts_mid := (first.start : Int) < start ∧ start < (first.stop : Int)
        let ends_mid := (lastTok.start : Int) < stop ∧ stop < (lastTok.stop : Int)
        if starts_mid ∧ ends_mid then FailureReason.both_boundaries_mid_token
        else if starts_mid then FailureReason.start_mid_token
        else if ends_mid then FailureReason.end_mid_token
        else if sliceIsSpace text start.toNat (start.toNat + 1) then
          FailureReason.starts_with_whitespace
        else if 0 < stop ∧ sliceIsSpace text (stop.toNat - 1) stop.toNat then
          FailureReason.ends_with_whitespace
        else
          let expected := pyWordCount expected_text
          let got := (first :: rest).length
          if got ≠ expected then FailureReason.tokenization_mismatch expected got
          else FailureReason.unknown_reason

/-- Modelled from the spec (§4.3): the classifier as the spec words it — the
same precedence chain, with the mid-token categories phrased as a boundary
falling strictly inside the interior of SOME token of the sequence. -/
def specClassify (tokens : List Token) (text : List Char)
    (start stop : Int) : FailureReason :=
  if start < 0 ∨ stop > (text.length : Int) ∨ start ≥ stop then
    FailureReason.out_of_bounds
  else if pyStrip (sliceCl text start.toNat stop.toNat) = [] then
    FailureReason.whitespace_only
  else if overlappingTokens tokens start stop = [] then
    FailureReason.no_overlapping_tokens
  else
    let startsMid := ∃ t ∈ tokens, (t.start : Int) < start ∧ start < (t.stop : Int)
    let endsMid := ∃ t ∈ tokens, (t.start : Int) < stop ∧ stop < (t.stop : Int)
    if startsMid ∧ endsMid then FailureReason.both_boundaries_mid_token
    else if startsMid then FailureReason.start_mid_token
    else if endsMid then FailureReason.end_mid_token
    else if sliceIsSpace text start.toNat (start.toNat + 1) then
      FailureReason.starts_with_whitespace
    else if 0 < stop ∧ sliceIsSpace text (stop.toNat - 1) stop.toNat then
      FailureReason.ends_with_whitespace
    else if (overlappingTokens tokens start stop).length ≠
        pyWordCount (sliceCl text start.toNat stop.toNat) then
      FailureReason.tokenization_mismatch
        (pyWordCount (sliceCl text start.toNat stop.toNat))
        ((overlappingTokens tokens start stop).length)
    else FailureReason.unknown_reason

/-! ## Helper lemmas -/

theorem mem_of_getElem_some {α : Type _} {l : List α} {n : Nat} {a : α}
    (h : l[n]? = some a) : a ∈ l := by
  rw [List.getElem?_eq_some] at h
  obtain ⟨h1, h2⟩ := h
  exact h2 ▸ List.getElem_mem h1

theorem exists_of_findSome_eq_some {α β : Type _} {f : α → Option β}
    {l : List α} {b : β} (h : List.findSome? f l = some b) :
    ∃ a ∈ l, f a = some b := by
  induction l with
  | nil => simp [List.findSome?] at h
  | cons x xs ih =>
    rw [List.findSome?_cons] at h
    cases hx : f x with
    | some v =>
      rw [hx] at h
      exact ⟨x, List.mem_cons_self x xs, by rw [hx]; exact h⟩
    | none =>
      rw [hx] at h
      obtain ⟨a, ha, hf⟩ := ih h
      exact ⟨a, List.mem_cons_of_mem x ha, hf⟩

/-- Every span `charSpan` returns has both character boundaries on token
boundaries, in every alignment mode: each success branch copies the bounds
of tokens looked up in the token list. -/
theorem charSpan_boundaryOk {tokens : List Token} {startIdx endIdx : Int}
    {label : String} {mode : AlignMode} {sp : SpacySpan}
    (h : charSpan tokens startIdx endIdx label mode = some sp) :
    boundaryOk tokens sp := by
  unfold charSpan at h
  repeat' first
  | exact Option.noConfusion h
  | split at h
  | simp only [] at h
  all_goals
    injection h with h
    subst h
    exact ⟨⟨_, mem_of_getElem_some (by assumption), rfl⟩,
           ⟨_, mem_of_getElem_some (by assumption), rfl⟩⟩

theorem tryStrategy3_boundaryOk {tokens : List Token} {text : List Char}
    {start stop : Int} {label : String} {sp : SpacySpan}
    (h : tryStrategy3 tokens text start stop label = some sp) :
    boundaryOk tokens sp := by
  unfold tryStrategy3 at h
  repeat' first
  | exact Option.noConfusion h
  | exact charSpan_boundaryOk h
  | (injection h with h; subst h; exact charSpan_boundaryOk (by assumption))
  | split at h
  | simp only [] at h

theorem tryStrategy4_boundaryOk {tokens : List Token} {textLen : Nat}
    {start stop : Int} {label : String} {sp : SpacySpan}
    (h : tryStrategy4 tokens textLen start stop label = some sp) :
    boundaryOk tokens sp := by
  unfold tryStrategy4 at h
  obtain ⟨p, -, hp⟩ := exists_of_findSome_eq_some h
  exact charSpan_boundaryOk hp

theorem tryStrategy5_boundaryOk {tokens : List Token} {textLen : Nat}
    {start stop : Int} {label : String} {sp : SpacySpan}
    (h : tryStrategy5 tokens textLen start stop label = some sp) :
    boundaryOk tokens sp := by
  unfold tryStrategy5 at h
  obtain ⟨p, -, hp⟩ := exists_of_findSome_eq_some h
  split at hp
  · exact Option.noConfusion hp
  · exact charSpan_boundaryOk hp

/-! ## Claim theorems -/

/-- C1: for every text, token sequence and raw span, if the alignment
resolver (`try_alignment_strategies`, or the driver's initial expand
attempt) returns a span rather than failing, then the returned span's start
equals some token's start and its end equals some token's end, regardless
of which of the six strategies produced it. -/
theorem claim1_boundary_invariant (tokens : List Token) (text : List Char)
    (start stop : Int) (label : String) (sp : SpacySpan) :
    (charSpan tokens start stop label AlignMode.expand = some sp →
      boundaryOk tokens sp) ∧
    (try_alignment_strategies tokens text start stop label = some sp →
      boundaryOk tokens sp) := by
  constructor
  · exact charSpan_boundaryOk
  · intro h
    unfold try_alignment_strategies at h
    split at h
    next span heq =>
      injection h with h; subst h; exact charSpan_boundaryOk heq
    next =>
    split at h
    next span heq =>
      injection h with h; subst h; exact charSpan_boundaryOk heq
    next =>
    split at h
    next span heq =>
      injection h with h; subst h; exact tryStrategy3_boundaryOk heq
    next =>
    split at h
    next span heq =>
      injection h with h; subst h; exact tryStrategy4_boundaryOk heq
    next =>
    split at h
    next span heq =>
      injection h with h; subst h; exact tryStrategy5_boundaryOk heq
    next =>
    exact charSpan_boundaryOk h

/-- Witness for C1: on Scenario B the resolver succeeds with the span
`(2, 9)`, whose boundaries are boundaries of tokens `(2,3)` and `(4,9)`. -/
theorem claim1_boundary_invariant_witness :
    boundaryOk scenTokens ⟨1, 3, 2, 9, "nomen"⟩ :=
  (claim1_boundary_invariant scenTokens scenText 3 9 "nomen"
    ⟨1, 3, 2, 9, "nomen"⟩).2 (by decide)

/-- C7: for the text of Scenario B with raw span `(3, 9, "nomen")`, the
Strict attempt fails and the first succeeding attempt is Expand, producing
the aligned span `(2, 9)` (not the whitespace-trimmed `(4, 9)`). -/
theorem claim7_scenarioB :
    charSpan scenTokens 3 9 "nomen" AlignMode.strict = none ∧
    charSpan scenTokens 3 9 "nomen" AlignMode.expand =
      some ⟨1, 3, 2, 9, "nomen"⟩ ∧
    try_alignment_strategies scenTokens scenText 3 9 "nomen" =
      some ⟨1, 3, 2, 9, "nomen"⟩ ∧
    (⟨1, 3, 2, 9, "nomen"⟩ : SpacySpan).startChar = 2 ∧
    (⟨1, 3, 2, 9, "nomen"⟩ : SpacySpan).stopChar = 9 := by
  decide

/-- C4: `_validate_record` does NOT return normally on every record: a
record missing `id` but carrying a transcription string and a nonempty
annotations list makes line 89 evaluate `record['id']`, raising `KeyError`
(the missing `id` was only warned about at line 67). -/
theorem claim4_validate_record_raises :
    validateRecord
      [("transcription", PyVal.pyStr "abc"),
       ("annotations", PyVal.pyList
         [PyVal.pyList [PyVal.pyInt 0, PyVal.pyInt 1, PyVal.pyStr "x"]])]
      1 initVState = Except.error PyExc.keyError := by
  rfl

/-- C9: `get_annotation_spans` is total and, case by case over the value of
the record's `annotations` field: a list is returned unchanged, a dict
containing the key yields the nested value, and everything else (missing
key, string, number, `None`, dict without the key) yields `[]`. -/
theorem claim9_get_annotation_spans_total (record : List (String × PyVal)) :
    (∀ xs, dictGet record "annotations" = some (PyVal.pyList xs) →
      get_annotation_spans record = PyVal.pyList xs) ∧
    (∀ entries v, dictGet record "annotations" = some (PyVal.pyDict entries) →
      dictGet entries "annotations" = some v →
      get_annotation_spans record = v) ∧
    (dictGet record "annotations" = none →
      get_annotation_spans record = PyVal.pyList []) ∧
    (∀ entries, dictGet record "annotations" = some (PyVal.pyDict entries) →
      dictGet entries "annotations" = none →
      get_annotation_spans record = PyVal.pyList []) ∧
    (∀ s, dictGet record "annotations" = some (PyVal.pyStr s) →
      get_annotation_spans record = PyVal.pyList []) ∧
    (∀ n, dictGet record "annotations" = some (PyVal.pyInt n) →
      get_annotation_spans record = PyVal.pyList []) ∧
    (dictGet record "annotations" = some PyVal.pyNone →
      get_annotation_spans record = PyVal.pyList []) := by
  refine ⟨?_, ?_, ?_, ?_, ?_, ?_, ?_⟩
  · intro xs h; simp [get_annotation_spans, h]
  · intro entries v h1 h2; simp [get_annotation_spans, h1, pySubscript, h2]
  · intro h; simp [get_annotation_spans, h, pySubscript]
  · intro entries h1 h2; simp [get_annotation_spans, h1, pySubscript, h2]
  · intro s h; simp [get_annotation_spans, h, pySubscript]
  · intro n h; simp [get_annotation_spans, h, pySubscript]
  · intro h; simp [get_annotation_spans, h, pySubscript]

/-- Witness for C9: a record whose `annotations` field is a list gets it
back unchanged. -/
theorem claim9_witness :
    get_annotation_spans
      [("annotations", PyVal.pyList [PyVal.pyInt 7])] =
      PyVal.pyList [PyVal.pyInt 7] :=
  (claim9_get_annotation_spans_total _).1 [PyVal.pyInt 7] rfl

/-- C3: each well-formed raw span offered to the resolver increments
exactly one of the counters, so after a document is processed,
`perfect_alignments + recovered_ents + dropped_ents` equals the number of
well-formed raw spans in its annotation list. -/
theorem claim3_recovery_accounting (tokens : List Token) (text : List Char)
    (anns : List RawEntity) :
    (processAnnotations tokens text anns).2.perfect +
      (processAnnotations tokens text anns).2.recovered +
      (processAnnotations tokens text anns).2.dropped =
      anns.countP RawEntity.isTriple := by
  induction anns with
  | nil => rfl
  | cons a rest ih =>
    cases a with
    | malformed =>
      simpa [processAnnotations, List.countP_cons, RawEntity.isTriple] using ih
    | triple s e lbl =>
      rw [List.countP_cons]
      simp only [RawEntity.isTriple, if_pos]
      unfold processAnnotations
      cases h1 : charSpan tokens s e lbl AlignMode.expand with
      | some sp => simp only [h1]; omega
      | none =>
        cases h2 : try_alignment_strategies tokens text s e lbl with
        | some sp => simp only [h1, h2]; omega
        | none => simp only [h1, h2]; omega

/-- C6 counterexample: with text length 10 and raw span `(0, 2)`, the first
candidate attempted by strategy 4 is `(0, 1) = (max(0, 0-1), min(10, 2-1))`,
and no single delta satisfies `0 = 0 + delta` and `1 = 2 + delta`: clamping
at the text edge breaks the claimed uniformity of the shift. -/
theorem claim6_counterexample :
    strategy4Bounds 10 0 2 = [(0, 1), (1, 3), (0, 0), (2, 4)] ∧
    ¬ ∃ δ : Int, (0 : Int) = 0 + δ ∧ (1 : Int) = 2 + δ := by
  constructor
  · decide
  · rintro ⟨δ, h1, h2⟩
    omega

/-- C6 amended: strategy 4 retries Expand on the candidates
`(max(0, start+delta), min(len(text), end+delta))` for deltas `-1, +1, -2,
+2` in that order; whenever `0 ≤ start+delta` and `end+delta ≤ len(text)`,
the candidate equals the exact uniform shift `(start+delta, end+delta)`. -/
theorem claim6_uniform_shift (textLen : Nat) (start stop : Int) :
    strategy4Bounds textLen start stop =
      [(max 0 (start + (-1)), min (textLen : Int) (stop + (-1))),
       (max 0 (start + 1), min (textLen : Int) (stop + 1)),
       (max 0 (start + (-2)), min (textLen : Int) (stop + (-2))),
       (max 0 (start + 2), min (textLen : Int) (stop + 2))] ∧
    (∀ δ ∈ strategy4Deltas, 0 ≤ start + δ → stop + δ ≤ (textLen : Int) →
      (max 0 (start + δ), min (textLen : Int) (stop + δ)) =
        (start + δ, stop + δ)) := by
  constructor
  · rfl
  · intro δ _ h1 h2
    simp only [Prod.mk.injEq]
    constructor <;> omega

/-- Witness for C6: delta `-1` on span `(3, 5)` in a text of length 10 stays
in bounds, so the attempted candidate is the exact uniform shift `(2, 4)`. -/
theorem claim6_uniform_shift_witness :
    ((-1 : Int) ∈ strategy4Deltas) ∧
    (max 0 ((3 : Int) + (-1)), min ((10 : Nat) : Int) ((5 : Int) + (-1))) =
      ((3 : Int) + (-1), (5 : Int) + (-1)) :=
  ⟨by decide, (claim6_uniform_shift 10 3 5).2 (-1) (by decide) (by decide) (by decide)⟩

/-- Membership in the shift enumeration of strategy 5: the full
cross-product minus only the no-op. -/
theorem strategy5Shifts_mem (ss es : Int) :
    (ss, es) ∈ strategy5Shifts ↔
      ss ∈ shiftRange ∧ es ∈ shiftRange ∧ ¬(ss = 0 ∧ es = 0) := by
  simp only [strategy5Shifts, List.mem_filter, List.mem_flatMap, List.mem_map]
  constructor
  · rintro ⟨⟨a, ha, b, hb, heq⟩, hp⟩
    injection heq with h1 h2
    subst h1; subst h2
    exact ⟨ha, hb, not_and_or.mpr (by simpa using hp)⟩
  · rintro ⟨ha, hb, hp⟩
    exact ⟨⟨ss, ha, es, hb, rfl⟩, by simpa using not_and_or.mp hp⟩

theorem findSome_filter_of_none {α β : Type _} (f : α → Option β)
    (p : α → Bool) (l : List α) (h : ∀ a ∈ l, p a = false → f a = none) :
    List.findSome? f l = List.findSome? f (l.filter p) := by
  induction l with
  | nil => rfl
  | cons x xs ih =>
    have ih' := ih fun a ha hpa => h a (List.mem_cons_of_mem x ha) hpa
    by_cases hx : p x = true
    · rw [List.filter_cons_of_pos hx, List.findSome?_cons, List.findSome?_cons]
      cases hfx : f x
      · simpa [hfx] using ih'
      · simp [hfx]
    · rw [List.filter_cons_of_neg (by simpa using hx), List.findSome?_cons,
        h x (List.mem_cons_self x xs) (by simpa using hx)]
      exact ih'

/-- C5 counterexample: the code's enumeration skips only `(0,0)`: the
uniform pair `(-1,-1)` is enumerated, and strategy 5 invoked directly on
tokens `[(0,2),(2,4),(4,6),(6,8)]`, text length 8, raw span `(3,6)` returns
`(0,4)` via the uniform pair `(-2,-2)`, while the claim's enumeration
without the uniform pairs returns `(0,6)`. -/
theorem claim5_counterexample :
    ((-1 : Int), (-1 : Int)) ∈ strategy5Shifts ∧
    ((0 : Int), (0 : Int)) ∉ strategy5Shifts ∧
    tryStrategy5 [⟨0, 2⟩, ⟨2, 4⟩, ⟨4, 6⟩, ⟨6, 8⟩] 8 3 6 "x" =
      some ⟨0, 2, 0, 4, "x"⟩ ∧
    tryStrategy5Spec [⟨0, 2⟩, ⟨2, 4⟩, ⟨4, 6⟩, ⟨6, 8⟩] 8 3 6 "x" =
      some ⟨0, 3, 0, 6, "x"⟩ := by
  decide

/-- C5 amended: strategy 5 tries Expand over the cross-product of
`start_shift` and `end_shift` in `{-2,-1,0,1,2}` excluding only the no-op
`(0,0)` (uniform combinations are enumerated again), skipping combinations
whose clamped bounds satisfy `start >= end`; whenever strategy 4 has just
failed — always the case when strategy 5 runs inside the ladder — the
re-tried uniform combinations fail again, so the result coincides with the
claimed enumeration that excludes them. -/
theorem claim5_independent_shift (ss es : Int) (tokens : List Token)
    (textLen : Nat) (start stop : Int) (label : String) :
    ((ss, es) ∈ strategy5Shifts ↔
      ss ∈ shiftRange ∧ es ∈ shiftRange ∧ ¬(ss = 0 ∧ es = 0)) ∧
    (tryStrategy4 tokens textLen start stop label = none →
      tryStrategy5 tokens textLen start stop label =
        tryStrategy5Spec tokens textLen start stop label) := by
  refine ⟨strategy5Shifts_mem ss es, fun h4 => ?_⟩
  have hnone : ∀ q ∈ strategy4Bounds textLen start stop,
      charSpan tokens q.1 q.2 label AlignMode.expand = none := by
    rw [tryStrategy4, List.findSome?_eq_none_iff] at h4
    exact h4
  have hspec : strategy5ShiftsSpec =
      strategy5Shifts.filter (fun p => !(p.1 = p.2)) := by decide
  unfold tryStrategy5 tryStrategy5Spec
  rw [hspec]
  apply findSome_filter_of_none
  intro p hp hfalse
  have hdiag : p.1 = p.2 := by simpa using hfalse
  obtain ⟨a, b⟩ := p
  simp only at hdiag
  subst hdiag
  obtain ⟨hrange, -, hnz⟩ := (strategy5Shifts_mem a a).mp hp
  have hnz' : a ≠ 0 := fun hh => hnz ⟨hh, hh⟩
  cases hA : strategy5Attempt textLen start stop (a, a) with
  | none => simp [hA]
  | some q =>
    simp only [hA]
    unfold strategy5Attempt at hA
    simp only [] at hA
    split at hA
    · exact Option.noConfusion hA
    · injection hA with hA
      subst hA
      apply hnone
      rw [strategy4Bounds, List.mem_map]
      refine ⟨a, ?_, rfl⟩
      have hcases : a = -2 ∨ a = -1 ∨ a = 0 ∨ a = 1 ∨ a = 2 := by
        simpa [shiftRange] using hrange
      rcases hcases with h | h | h | h | h
      · subst h; decide
      · subst h; decide
      · exact absurd h hnz'
      · subst h; decide
      · subst h; decide

/-- Witness for C5: a non-uniform pair is enumerated, and on the empty
token list (where strategy 4 trivially fails) strategy 5 agrees with the
spec's enumeration. -/
theorem claim5_independent_shift_witness :
    ((-2 : Int), (1 : Int)) ∈ strategy5Shifts ∧
    tryStrategy5 [] 5 1 3 "x" = tryStrategy5Spec [] 5 1 3 "x" :=
  ⟨(claim5_independent_shift (-2) 1 [] 5 1 3 "x").1.mpr (by decide),
   (claim5_independent_shift 0 0 [] 5 1 3 "x").2 (by decide)⟩

/-- Characterization of the classifier's overlap filter. -/
theorem mem_overlappingTokens {tokens : List Token} {start stop : Int}
    {t : Token} :
    t ∈ overlappingTokens tokens start stop ↔
      t ∈ tokens ∧ start < (t.stop : Int) ∧ (t.start : Int) < stop := by
  rw [overlappingTokens, List.mem_filter]
  constructor
  · rintro ⟨hmem, hcond⟩
    simp only [Bool.not_eq_true', decide_eq_false_iff_not, not_or] at hcond
    exact ⟨hmem, by omega, by omega⟩
  · rintro ⟨hmem, h1, h2⟩
    refine ⟨hmem, ?_⟩
    simp only [Bool.not_eq_true', decide_eq_false_iff_not, not_or]
    omega

/-- For an ordered token sequence with `start < stop`, the start boundary
falls strictly inside the FIRST overlapping token iff it falls strictly
inside SOME token. -/
theorem startsMid_head {tokens : List Token} {start stop : Int}
    {first : Token} {rest : List Token}
    (hpw : tokens.Pairwise fun a b => a.stop ≤ b.start)
    (hlt : start < stop)
    (hov : overlappingTokens tokens start stop = first :: rest) :
    ((first.start : Int) < start ∧ start < (first.stop : Int)) ↔
      ∃ t ∈ tokens, (t.start : Int) < start ∧ start < (t.stop : Int) := by
  have hfov : first ∈ overlappingTokens tokens start stop := by
    rw [hov]; exact List.mem_cons_self _ _
  have hfo := mem_overlappingTokens.mp hfov
  constructor
  · intro h
    exact ⟨first, hfo.1, h⟩
  · rintro ⟨t, ht, h1, h2⟩
    have htov : t ∈ overlappingTokens tokens start stop :=
      mem_overlappingTokens.mpr ⟨ht, h2, by omega⟩
    rw [hov] at htov
    rcases List.mem_cons.mp htov with rfl | hrest
    · exact ⟨h1, h2⟩
    · have hpw' : (first :: rest).Pairwise (fun a b => a.stop ≤ b.start) := by
        rw [← hov]
        exact List.Pairwise.sublist (List.filter_sublist _) hpw
      have hfirst := (List.pairwise_cons.mp hpw').1 t hrest
      have hst : start < (first.stop : Int) := hfo.2.1
      omega

/-- For an ordered token sequence with `start < stop`, the end boundary
falls strictly inside the LAST overlapping token iff it falls strictly
inside SOME token. -/
theorem endsMid_last {tokens : List Token} {start stop : Int}
    {first : Token} {rest : List Token}
    (hpw : tokens.Pairwise fun a b => a.stop ≤ b.start)
    (hlt : start < stop)
    (hov : overlappingTokens tokens start stop = first :: rest) :
    ((((first :: rest).getLast (List.cons_ne_nil _ _)).start : Int) < stop ∧
        stop < (((first :: rest).getLast (List.cons_ne_nil _ _)).stop : Int)) ↔
      ∃ t ∈ tokens, (t.start : Int) < stop ∧ stop < (t.stop : Int) := by
  have hlov : (first :: rest).getLast (List.cons_ne_nil _ _) ∈
      overlappingTokens tokens start stop := by
    rw [hov]; exact List.getLast_mem _
  have hlo := mem_overlappingTokens.mp hlov
  constructor
  · intro h
    exact ⟨_, hlo.1, h⟩
  · rintro ⟨t, ht, h1, h2⟩
    have htov : t ∈ overlappingTokens tokens start stop :=
      mem_overlappingTokens.mpr ⟨ht, by omega, h1⟩
    have hpw' : (first :: rest).Pairwise (fun a b => a.stop ≤ b.start) := by
      rw [← hov]
      exact List.Pairwise.sublist (List.filter_sublist _) hpw
    rw [hov] at htov
    have hdecomp :=
      List.dropLast_append_getLast (l := first :: rest) (List.cons_ne_nil _ _)
    rw [← hdecomp] at htov
    rcases List.mem_append.mp htov with hdl | hl2
    · have hpw2 : ((first :: rest).dropLast ++
          [(first :: rest).getLast (List.cons_ne_nil _ _)]).Pairwise
            (fun a b => a.stop ≤ b.start) := by
        rw [hdecomp]; exact hpw'
      have hrel := (List.pairwise_append.mp hpw2).2.2 t hdl _
        (List.mem_singleton_self _)
      have hls : ((((first :: rest).getLast (List.cons_ne_nil _ _)).start : Int)) < stop :=
        hlo.2.2
      omega
    · have heq : t = (first :: rest).getLast (List.cons_ne_nil _ _) :=
        List.mem_singleton.mp hl2
      subst heq
      exact ⟨h1, h2⟩

/-- C8: for every tokenized document, text and integer pair, the failure
classifier returns exactly one reason from the closed enumeration, checked
in the fixed precedence order; under the tokenizer's ordering guarantee it
agrees with the spec's phrasing of the categories (`specClassify`), whose
mid-token conditions quantify over some token of the sequence. -/
theorem claim8_classifier_precedence (tokens : List Token) (text : List Char)
    (start stop : Int)
    (hpw : tokens.Pairwise fun a b => a.stop ≤ b.start) :
    diagnose_failure_reason tokens text start stop =
      specClassify tokens text start stop := by
  unfold diagnose_failure_reason specClassify
  by_cases h1 : start < 0 ∨ stop > (text.length : Int) ∨ start ≥ stop
  · simp only [if_pos h1]
  · simp only [if_neg h1]
    have hlt : start < stop := by omega
    by_cases h2 : pyStrip (sliceCl text start.toNat stop.toNat) = []
    · simp only [if_pos h2]
    · simp only [if_neg h2]
      cases hov : overlappingTokens tokens start stop with
      | nil => simp [hov]
      | cons first rest =>
        simp [hov, startsMid_head hpw hlt hov, endsMid_last hpw hlt hov]

/-- Witness for C8 (Scenario C): the out-of-bounds raw span `(-5, 3)` on an
ordered token sequence, classified identically by code and spec. -/
theorem claim8_classifier_precedence_witness :
    scenTokens.Pairwise (fun a b => a.stop ≤ b.start) ∧
    diagnose_failure_reason scenTokens scenText (-5) 3 =
      specClassify scenTokens scenText (-5) 3 :=
  ⟨by decide,
   claim8_classifier_precedence scenTokens scenText (-5) 3 (by decide)⟩

theorem countVal_bumpCount_self (cs : List (String × Nat)) (label : String) :
    countVal (bumpCount cs label) label = countVal cs label + 1 := by
  induction cs with
  | nil => simp [bumpCount, countVal]
  | cons e rest ih =>
    by_cases he : e.1 = label
    · simp [bumpCount, countVal, he]
    · simpa [bumpCount, countVal, he] using ih

theorem countVal_bumpCount_ne (cs : List (String × Nat)) (label l : String)
    (h : l ≠ label) : countVal (bumpCount cs label) l = countVal cs l := by
  induction cs with
  | nil => simp [bumpCount, countVal, Ne.symm h]
  | cons e rest ih =>
    by_cases he : e.1 = label
    · have hne : e.1 ≠ l := fun hh => h (hh ▸ he)
      simp [bumpCount, countVal, he, hne, Ne.symm h]
    · by_cases hel : e.1 = l
      · simp [bumpCount, countVal, he, hel, h]
      · simpa [bumpCount, countVal, he, hel] using ih

theorem sum_bumpCount (cs : List (String × Nat)) (label : String) :
    ((bumpCount cs label).map (·.2)).sum = (cs.map (·.2)).sum + 1 := by
  induction cs with
  | nil => simp [bumpCount]
  | cons e rest ih =>
    by_cases he : e.1 = label
    · simp [bumpCount, he]
      omega
    · simp [bumpCount, he, ih]
      omega

theorem examplesVal_addExample_self (es : List (String × List ExampleEntry))
    (label : String) (ex : ExampleEntry) :
    examplesVal (addExample es label ex) label = examplesVal es label ++ [ex] := by
  induction es with
  | nil => simp [addExample, examplesVal]
  | cons e rest ih =>
    by_cases he : e.1 = label
    · simp [addExample, examplesVal, he]
    · simpa [addExample, examplesVal, he] using ih

theorem examplesVal_addExample_ne (es : List (String × List ExampleEntry))
    (label l : String) (ex : ExampleEntry) (h : l ≠ label) :
    examplesVal (addExample es label ex) l = examplesVal es l := by
  induction es with
  | nil => simp [addExample, examplesVal, Ne.symm h]
  | cons e rest ih =>
    by_cases he : e.1 = label
    · have hne : e.1 ≠ l := fun hh => h (hh ▸ he)
      simp [addExample, examplesVal, he, hne, Ne.symm h]
    · by_cases hel : e.1 = l
      · simp [addExample, examplesVal, he, hel, h]
      · simpa [addExample, examplesVal, he, hel] using ih

/-- The per-annotation check never raises when the record's text is a
string: the result is `Except.ok` of the state `vResult` extracts. -/
theorem validateAnnSpan_str_ok (start stop : Int) (label : String)
    (s : String) (lineNum annIndex : Nat) (rid : PyVal) (st : VState) :
    validateAnnSpan
        (PyVal.pyList [PyVal.pyInt start, PyVal.pyInt stop, PyVal.pyStr label])
        (PyVal.pyStr s) lineNum annIndex rid st =
      Except.ok (vResult st (validateAnnSpan
        (PyVal.pyList [PyVal.pyInt start, PyVal.pyInt stop, PyVal.pyStr label])
        (PyVal.pyStr s) lineNum annIndex rid st)) := by
  unfold validateAnnSpan
  simp only [pyLen, pySliceStr]
  split_ifs <;> rfl

/-- C10: in the validation engine, a well-typed annotation triple over a
string text contributes to `entity_counts`, `entity_examples` and hence
`total_entities` only when `0 <= start < end <= len(text)`; every
out-of-bounds or inverted triple appends at least one error string but
leaves counts and examples unchanged; the per-label example store never
exceeds 5; and the check itself never raises on such input. -/
theorem claim10_entity_accounting (start stop : Int) (label : String)
    (s : String) (lineNum annIndex : Nat) (rid : PyVal) (st : VState) :
    (validateAnnSpan
        (PyVal.pyList [PyVal.pyInt start, PyVal.pyInt stop, PyVal.pyStr label])
        (PyVal.pyStr s) lineNum annIndex rid st =
      Except.ok (vResult st (validateAnnSpan
        (PyVal.pyList [PyVal.pyInt start, PyVal.pyInt stop, PyVal.pyStr label])
        (PyVal.pyStr s) lineNum annIndex rid st))) ∧
    ∀ st', validateAnnSpan
        (PyVal.pyList [PyVal.pyInt start, PyVal.pyInt stop, PyVal.pyStr label])
        (PyVal.pyStr s) lineNum annIndex rid st = Except.ok st' →
      ((¬(0 ≤ start ∧ start < stop ∧ stop ≤ (s.length : Int))) →
        st'.entity_counts = st.entity_counts ∧
        st'.entity_examples = st.entity_examples ∧
        st.errors.length < st'.errors.length) ∧
      ((0 ≤ start ∧ start < stop ∧ stop ≤ (s.length : Int)) →
        countVal st'.entity_counts label = countVal st.entity_counts label + 1 ∧
        (∀ l, l ≠ label → countVal st'.entity_counts l = countVal st.entity_counts l) ∧
        totalEntities st' = totalEntities st + 1 ∧
        st'.errors = st.errors) ∧
      ((∀ l, (examplesVal st.entity_examples l).length ≤ 5) →
        ∀ l, (examplesVal st'.entity_examples l).length ≤ 5) := by
  refine ⟨validateAnnSpan_str_ok start stop label s lineNum annIndex rid st, ?_⟩
  intro st' heq
  unfold validateAnnSpan at heq
  simp only [pyLen, pySliceStr] at heq
  by_cases hb : 0 ≤ start ∧ start < stop ∧ stop ≤ (s.length : Int)
  · have h1 : ¬(start < 0) := by omega
    have h2 : ¬(stop > (s.length : Int)) := by omega
    have h3 : ¬(start ≥ stop) := by omega
    rw [if_neg h1, if_neg h2, if_neg h3, if_pos hb] at heq
    injection heq with heq
    subst heq
    refine ⟨fun hn => absurd hb hn, fun _ => ?_, fun hle l => ?_⟩
    · split_ifs <;>
        exact ⟨countVal_bumpCount_self _ _,
          fun l hl => countVal_bumpCount_ne _ label l hl,
          by simpa [totalEntities] using sum_bumpCount st.entity_counts label,
          rfl⟩
    · by_cases hl : l = label
      · subst hl
        split_ifs with hw hlen hlen <;>
          simp_all only [examplesVal_addExample_self, List.length_append,
            List.length_singleton] <;>
          first
          | exact hle l
          | omega
      · split_ifs <;>
          simpa [examplesVal_addExample_ne _ _ _ _ hl] using hle l
  · rw [if_neg hb] at heq
    injection heq with heq
    subst heq
    refine ⟨fun _ => ?_, fun hb' => absurd hb' hb, fun hle l => ?_⟩
    · refine ⟨?_, ?_, ?_⟩ <;>
        (split_ifs <;> simp_all [List.length_append])
    · split_ifs <;> exact hle l

/-- Witness for C10: the inverted triple `(-1, 2, "x")` on text `"ab"` adds
no entity count. -/
theorem claim10_entity_accounting_witness :
    ¬((0 : Int) ≤ -1 ∧ (-1 : Int) < 2 ∧ (2 : Int) ≤ ("ab".length : Int)) ∧
    (vResult initVState (validateAnnSpan
        (PyVal.pyList [PyVal.pyInt (-1), PyVal.pyInt 2, PyVal.pyStr "x"])
        (PyVal.pyStr "ab") 1 0 PyVal.pyNone initVState)).entity_counts =
      initVState.entity_counts := by
  have h := claim10_entity_accounting (-1) 2 "x" "ab" 1 0 PyVal.pyNone initVState
  exact ⟨by decide, ((h.2 _ h.1).1 (by decide)).1⟩

/-! ## Overlap-resolution lemmas (C2) -/

theorem spanTok_mem_range {sp : SpacySpan} {n : Nat}
    (hp : sp.startTok < sp.endTok) :
    n ∈ List.range' sp.startTok (sp.endTok - sp.startTok) ↔ spanTok sp n := by
  rw [List.mem_range'_1]
  unfold spanTok
  omega

theorem spansDisjoint_symm {a b : SpacySpan} (h : spansDisjoint a b) :
    spansDisjoint b a :=
  fun n hn => h n ⟨hn.2, hn.1⟩

/-- The heart of `filter_spans`' endpoint check: for spans at most as long
as an accepted span, avoiding the accepted span at both the first and the
last token means avoiding it everywhere — a strictly interior containment
would force the accepted span to be at least two tokens shorter. -/
theorem disjoint_of_endpoints {r c : SpacySpan}
    (hc : c.startTok < c.endTok) (hr : r.startTok < r.endTok)
    (hlen : span_length c ≤ span_length r)
    (h1 : ¬ spanTok r c.startTok) (h2 : ¬ spanTok r (c.endTok - 1)) :
    spansDisjoint r c := by
  intro n hn
  obtain ⟨⟨a1, a2⟩, b1, b2⟩ := hn
  unfold spanTok at h1 h2
  unfold span_length at hlen
  omega

theorem filterGo_cons_pos (seen : List Nat) (sp : SpacySpan)
    (l : List SpacySpan)
    (h : sp.startTok ∈ seen ∨ sp.endTok - 1 ∈ seen) :
    filterGo seen (sp :: l) = filterGo seen l := by
  simp only [filterGo]
  rw [if_pos h]

theorem filterGo_cons_neg (seen : List Nat) (sp : SpacySpan)
    (l : List SpacySpan)
    (h : ¬(sp.startTok ∈ seen ∨ sp.endTok - 1 ∈ seen)) :
    filterGo seen (sp :: l) =
      sp :: filterGo (seen ++ List.range' sp.startTok (sp.endTok - sp.startTok)) l := by
  simp only [filterGo]
  rw [if_neg h]

/-- Soundness of the greedy acceptance loop: on a length-descending list of
proper spans it returns spans of the input whose endpoints avoid `seen`,
and the accepted spans are pairwise token-disjoint. -/
theorem filterGo_sound (l : List SpacySpan) (seen : List Nat)
    (hl : ∀ c ∈ l, c.startTok < c.endTok)
    (hsorted : l.Pairwise fun a b => span_length b ≤ span_length a) :
    (∀ x ∈ filterGo seen l,
      x ∈ l ∧ x.startTok ∉ seen ∧ x.endTok - 1 ∉ seen) ∧
    (filterGo seen l).Pairwise spansDisjoint := by
  induction l generalizing seen with
  | nil => simp [filterGo]
  | cons sp rest ih =>
    have hsp := hl sp (List.mem_cons_self sp rest)
    have hl' : ∀ c ∈ rest, c.startTok < c.endTok :=
      fun c hc => hl c (List.mem_cons_of_mem sp hc)
    rw [List.pairwise_cons] at hsorted
    obtain ⟨hge, hrest⟩ := hsorted
    by_cases hcond : sp.startTok ∈ seen ∨ sp.endTok - 1 ∈ seen
    · rw [filterGo_cons_pos seen sp rest hcond]
      obtain ⟨hmem, hpw⟩ := ih seen hl' hrest
      exact ⟨fun x hx => ⟨List.mem_cons_of_mem sp (hmem x hx).1,
        (hmem x hx).2.1, (hmem x hx).2.2⟩, hpw⟩
    · rw [filterGo_cons_neg seen sp rest hcond]
      push_neg at hcond
      obtain ⟨hc1, hc2⟩ := hcond
      obtain ⟨hmem, hpw⟩ :=
        ih (seen ++ List.range' sp.startTok (sp.endTok - sp.startTok)) hl' hrest
      constructor
      · intro x hx
        rcases List.mem_cons.mp hx with rfl | hx'
        · exact ⟨List.mem_cons_self _ _, hc1, hc2⟩
        · obtain ⟨hxl, hs, he⟩ := hmem x hx'
          exact ⟨List.mem_cons_of_mem sp hxl,
            fun hin => hs (List.mem_append_left _ hin),
            fun hin => he (List.mem_append_left _ hin)⟩
      · rw [List.pairwise_cons]
        refine ⟨?_, hpw⟩
        intro y hy
        obtain ⟨hyl, hs, he⟩ := hmem y hy
        have hy' := hl' y hyl
        have hylen : span_length y ≤ span_length sp := hge y hyl
        refine disjoint_of_endpoints hy' hsp hylen ?_ ?_
        · exact fun hIn =>
            hs (List.mem_append_right _ ((spanTok_mem_range hsp).mpr hIn))
        · exact fun hIn =>
            he (List.mem_append_right _ ((spanTok_mem_range hsp).mpr hIn))

/-- C2 (amended): on proper aligned spans, `filter_spans` returns a
pairwise token-disjoint subset in strictly increasing start order, and on
two overlapping spans it retains exactly the sort-priority winner: more
tokens first, ties by smaller start token, ties of both by input order. -/
theorem claim2_overlap_resolution (spans : List SpacySpan)
    (hp : ∀ sp ∈ spans, sp.startTok < sp.endTok) :
    (filter_spans spans).Pairwise spansDisjoint ∧
    (filter_spans spans).Pairwise (fun a b => a.startTok < b.startTok) ∧
    (∀ x y : SpacySpan, x.startTok < x.endTok → y.startTok < y.endTok →
      ¬ spansDisjoint x y →
      filter_spans [x, y] = if spanPriority x y then [x] else [y]) := by
  have hsorted1 : (List.insertionSort spanPriority spans).Pairwise spanPriority :=
    List.sorted_insertionSort spanPriority spans
  have hperm1 := List.perm_insertionSort spanPriority spans
  have hp1 : ∀ sp ∈ List.insertionSort spanPriority spans,
      sp.startTok < sp.endTok :=
    fun sp hsp => hp sp (hperm1.mem_iff.mp hsp)
  have hlen1 : (List.insertionSort spanPriority spans).Pairwise
      fun a b => span_length b ≤ span_length a :=
    List.Pairwise.imp (fun h => by unfold spanPriority at h; omega) hsorted1
  obtain ⟨hmemF, hpwF⟩ :=
    filterGo_sound (List.insertionSort spanPriority spans) [] hp1 hlen1
  have hpF : ∀ sp ∈ filterGo [] (List.insertionSort spanPriority spans),
      sp.startTok < sp.endTok :=
    fun sp hsp => hp1 sp (hmemF sp hsp).1
  have hperm2 := List.perm_insertionSort startPriority
    (filterGo [] (List.insertionSort spanPriority spans))
  have hdisj : (filter_spans spans).Pairwise spansDisjoint := by
    unfold filter_spans
    exact (hperm2.pairwise_iff fun h => spansDisjoint_symm h).mpr hpwF
  have hpR : ∀ sp ∈ filter_spans spans, sp.startTok < sp.endTok := by
    unfold filter_spans
    exact fun sp hsp => hpF sp (hperm2.mem_iff.mp hsp)
  have hsorted2 : (filter_spans spans).Pairwise startPriority :=
    List.sorted_insertionSort startPriority _
  refine ⟨hdisj, ?_, ?_⟩
  · refine List.Pairwise.imp_of_mem ?_ (hsorted2.and hdisj)
    intro a b ha hb hab
    obtain ⟨hle, hd⟩ := hab
    have hpa := hpR a ha
    have hpb := hpR b hb
    unfold startPriority at hle
    rcases lt_or_eq_of_le hle with hlt | heq
    · exact hlt
    · exact absurd (⟨⟨Nat.le_refl _, hpa⟩, by constructor <;> omega⟩ :
        spanTok a a.startTok ∧ spanTok b a.startTok) (hd a.startTok)
  · intro x y hx hy hov
    unfold filter_spans
    by_cases hpr : spanPriority x y
    · have hsort : List.insertionSort spanPriority [x, y] = [x, y] := by
        simp [List.insertionSort, List.orderedInsert, hpr]
      rw [hsort, if_pos hpr]
      have hxlen : span_length y ≤ span_length x := by
        unfold spanPriority at hpr; omega
      have hrej : y.startTok ∈
            ([] ++ List.range' x.startTok (x.endTok - x.startTok) : List Nat) ∨
          y.endTok - 1 ∈
            ([] ++ List.range' x.startTok (x.endTok - x.startTok) : List Nat) := by
        by_contra hcon
        push_neg at hcon
        refine hov (disjoint_of_endpoints hy hx hxlen ?_ ?_)
        · exact fun hIn => hcon.1 (by
            simpa using (spanTok_mem_range hx).mpr hIn)
        · exact fun hIn => hcon.2 (by
            simpa using (spanTok_mem_range hx).mpr hIn)
      rw [filterGo_cons_neg [] x [y] (by simp),
        filterGo_cons_pos _ y [] hrej]
      rfl
    · have hsort : List.insertionSort spanPriority [x, y] = [y, x] := by
        simp [List.insertionSort, List.orderedInsert, hpr]
      rw [hsort, if_neg hpr]
      have hylen : span_length x ≤ span_length y := by
        unfold spanPriority at hpr
        push_neg at hpr
        omega
      have hov' : ¬ spansDisjoint y x := fun hd => hov (spansDisjoint_symm hd)
      have hrej : x.startTok ∈
            ([] ++ List.range' y.startTok (y.endTok - y.startTok) : List Nat) ∨
          x.endTok - 1 ∈
            ([] ++ List.range' y.startTok (y.endTok - y.startTok) : List Nat) := by
        by_contra hcon
        push_neg at hcon
        refine hov' (disjoint_of_endpoints hx hy hylen ?_ ?_)
        · exact fun hIn => hcon.1 (by
            simpa using (spanTok_mem_range hy).mpr hIn)
        · exact fun hIn => hcon.2 (by
            simpa using (spanTok_mem_range hy).mpr hIn)
      rw [filterGo_cons_neg [] y [x] (by simp),
        filterGo_cons_pos _ x [] hrej]
      rfl

/-- C2 counterexample: spans covering token ranges `[2,4)` then `[1,3)` (in
that input order) have equal token count and share token 2, yet the pass
retains the LATER one `[1,3)` — ties are broken by smaller start, not by
input order as the claim states. -/
theorem claim2_counterexample :
    span_length ⟨2, 4, 2, 4, "A"⟩ = span_length ⟨1, 3, 1, 3, "B"⟩ ∧
    spanTok ⟨2, 4, 2, 4, "A"⟩ 2 ∧ spanTok ⟨1, 3, 1, 3, "B"⟩ 2 ∧
    filter_spans [⟨2, 4, 2, 4, "A"⟩, ⟨1, 3, 1, 3, "B"⟩] =
      [⟨1, 3, 1, 3, "B"⟩] := by
  decide

/-- Witness for C2: Scenario D's spans (token ranges `[0,3)` and `[2,3)`)
yield a pairwise disjoint result. -/
theorem claim2_overlap_resolution_witness :
    (filter_spans [⟨0, 3, 0, 9, "a"⟩, ⟨2, 3, 4, 9, "b"⟩]).Pairwise
      spansDisjoint :=
  (claim2_overlap_resolution _ (by decide)).1
